import Mathlib

/-!
Shallow embedding of the biupdata incremental update engine
(`api/binance.go`, `api/scheduler.go`, `utils/timezone.go`).

Timestamps: upstream protocol values are UTC milliseconds (`Int`).
Go `time.Time` is modelled as an absolute instant in nanoseconds together
with a display location; `.In(loc)` changes only the location, never the
instant, exactly as in Go.  Go `int64` division truncates toward zero,
which is `Int.tdiv` / `Int.tmod`.
-/

namespace Biupdata

/-- Display location of a Go `time.Time` value (only UTC and the configured
Shanghai zone occur in this code base). -/
inductive GoLoc where
  | utc
  | shanghai
deriving DecidableEq, Repr

/-- Go `time.Time`: an absolute instant (nanoseconds since the Unix epoch)
plus a display location.  `t.In(loc)` keeps `nano` and changes `loc`. -/
structure GoTime where
  nano : Int
  loc : GoLoc
deriving DecidableEq, Repr

/-- Go `time.Unix(sec, nsec)`: the instant `sec*1e9 + nsec` nanoseconds. -/
def timeUnix (sec nsec : Int) : GoTime :=
  ⟨sec * 1000000000 + nsec, .utc⟩

/-- `utils.UTCToShanghai` (timezone.go:25): `utcTime.In(shanghaiLocation)` —
same instant, Shanghai display location. -/
def UTCToShanghai (t : GoTime) : GoTime :=
  ⟨t.nano, .shanghai⟩

/-- `utils.ShanghaiToUTC` (timezone.go:34): `t.In(shanghai).UTC()` — same
instant, UTC display location. -/
def ShanghaiToUTC (t : GoTime) : GoTime :=
  ⟨t.nano, .utc⟩

/-- `t.UnixNano()`. -/
def unixNano (t : GoTime) : Int := t.nano

/-- `t.UnixNano() / int64(time.Millisecond)` — Go truncated division. -/
def unixMillis (t : GoTime) : Int := (unixNano t).tdiv 1000000

/-- `utils.TimestampToShanghai` (timezone.go:55):
`time.Unix(ts/1000, (ts%1000)*int64(time.Millisecond))` rendered in the
Shanghai location. -/
def TimestampToShanghai (timestamp : Int) : GoTime :=
  UTCToShanghai (timeUnix (timestamp.tdiv 1000) (timestamp.tmod 1000 * 1000000))

/-- `utils.ShanghaiToTimestamp` (timezone.go:62):
`ShanghaiToUTC(t).UnixNano() / int64(time.Millisecond)`. -/
def ShanghaiToTimestamp (t : GoTime) : Int :=
  unixMillis (ShanghaiToUTC t)

/-- `api.getIntervalMilliseconds` (binance.go:36): switch over the interval
string with a 1-hour default. -/
def getIntervalMilliseconds (interval : String) : Int :=
  if interval = "5m" then 5 * 60 * 1000
  else if interval = "30m" then 30 * 60 * 1000
  else if interval = "1h" then 60 * 60 * 1000
  else if interval = "4h" then 4 * 60 * 60 * 1000
  else 60 * 60 * 1000

/-- Go `map[string]V` read `m[k]`: first matching key, if any. -/
def mapGet {α : Type} : List (String × α) → String → Option α
  | [], _ => none
  | (k, v) :: rest, key => if k = key then some v else mapGet rest key

/-- Go `map[string]V` write `m[k] = v`: replace the existing entry or
append a new one. -/
def mapSet {α : Type} : List (String × α) → String → α → List (String × α)
  | [], key, v => [(key, v)]
  | (k, w) :: rest, key, v =>
      if k = key then (k, v) :: rest else (k, w) :: mapSet rest key v

/-- `api.intervalUpdateFrequency` initial value (binance.go:20): seconds per
interval. -/
def initialIntervalUpdateFrequency : List (String × Int) :=
  [("5m", 5 * 60), ("30m", 30 * 60), ("1h", 60 * 60), ("4h", 4 * 60 * 60)]

/-- The frequency `ShouldUpdateInterval` uses (binance.go:220):
the table entry, or the 10-minute default when the key is absent. -/
def shouldUpdateFrequency (ftbl : List (String × Int)) (interval : String) : Int :=
  match mapGet ftbl interval with
  | some f => f
  | none => 10 * 60

/-- `api.ShouldUpdateInterval` (binance.go:218):
`now.Sub(lastUpdateTime).Seconds() >= float64(frequency)`, embedded as the
exact comparison in nanoseconds (the float computation is exact at the
seconds granularity of the frequencies involved). -/
def ShouldUpdateInterval (ftbl : List (String × Int)) (interval : String)
    (nowT lastUpdateTime : GoTime) : Bool :=
  decide (nowT.nano - lastUpdateTime.nano ≥
    shouldUpdateFrequency ftbl interval * 1000000000)

/-- Go zero `time.Time{}`: January 1, year 1, 00:00 UTC. -/
def goZeroTime : GoTime := ⟨-62135596800 * 1000000000, .utc⟩

/-- `UpdateSymbolData` lines 245-247: convert the stored Shanghai-side
timestamp back to a UTC millisecond value through the Time Normalizer. -/
def lastToUtcMs (lastTimestamp : Int) : Int :=
  unixMillis (ShanghaiToUTC (TimestampToShanghai lastTimestamp))

/-- One upstream fetch request as issued to `FetchKlineData`:
`endTime = 0` means unbounded on that side (binance.go:113). -/
structure FetchReq where
  startTime : Int
  endTime : Int
  limit : Int
deriving DecidableEq, Repr

/-- The (start, clamped end) windows of the paginated-backfill loop
(binance.go:260-264): `for start := t0; start < now; start += 1000*d`,
each window ending at `min (start + 1000*d) now`.  The `0 < intervalMs`
conjunct is only the termination guard; `getIntervalMilliseconds` always
returns a positive value, so it never changes the traced behaviour. -/
def paginationWindows (startTime nowUTC intervalMs : Int) : List (Int × Int) :=
  if h : 0 < intervalMs ∧ startTime < nowUTC then
    (startTime, min (startTime + 1000 * intervalMs) nowUTC) ::
      paginationWindows (startTime + 1000 * intervalMs) nowUTC intervalMs
  else []
termination_by (nowUTC - startTime).toNat
decreasing_by
  obtain ⟨hd, hs⟩ := h
  omega

/-- The sequence of fetch requests `UpdateSymbolData` issues for one
interval (binance.go:252-296): paginated windows with limit 1000 when
`neededBars > 1000`, otherwise the single unbounded-end request. -/
def updateIntervalFetches (interval : String) (lastTimestamp nowUTC : Int) :
    List FetchReq :=
  let utcTimestamp := lastToUtcMs lastTimestamp
  let intervalMs := getIntervalMilliseconds interval
  let neededBars := (nowUTC - utcTimestamp).tdiv intervalMs
  if neededBars > 1000 then
    (paginationWindows utcTimestamp nowUTC intervalMs).map fun w =>
      ⟨w.1, w.2, 1000⟩
  else
    [⟨utcTimestamp, 0, 1000⟩]

/-- Spec-side page count: the ceiling of `(now - t0) / (1000*d)` for a
positive gap, zero otherwise. -/
def specNumPages (t0 nowUTC d : Int) : Nat :=
  if t0 < nowUTC then ((nowUTC - t0 - 1).tdiv (1000 * d)).toNat + 1 else 0

/-- Spec-side page boundaries: the k-th page covers
`[t0 + k*1000*d, min (t0 + (k+1)*1000*d) now]`. -/
def specPages (t0 nowUTC d : Int) : List (Int × Int) :=
  (List.range (specNumPages t0 nowUTC d)).map fun (k : Nat) =>
    (t0 + (k : Int) * (1000 * d), min (t0 + ((k : Int) + 1) * (1000 * d)) nowUTC)

theorem tdiv_add_one_mul (a p : Int) (ha : 0 ≤ a) (hp : 0 < p) :
    (a + 1 * p).tdiv p = a.tdiv p + 1 := by
  rw [Int.tdiv_eq_ediv (by omega) (by omega), Int.tdiv_eq_ediv ha (by omega),
    Int.add_mul_ediv_right _ _ (by omega)]

theorem tdiv_nonneg_of_nonneg (a p : Int) (ha : 0 ≤ a) (hp : 0 ≤ p) :
    0 ≤ a.tdiv p := by
  rw [Int.tdiv_eq_ediv ha hp]
  exact Int.ediv_nonneg ha hp

theorem paginationWindows_eq_specPages (t0 nowUTC d : Int) (hd : 0 < d) :
    paginationWindows t0 nowUTC d = specPages t0 nowUTC d := by
  rw [paginationWindows]
  by_cases hs : t0 < nowUTC
  · rw [dif_pos ⟨hd, hs⟩,
      paginationWindows_eq_specPages (t0 + 1000 * d) nowUTC d hd]
    have hp : (0 : Int) < 1000 * d := by omega
    have hnum : specNumPages t0 nowUTC d
        = specNumPages (t0 + 1000 * d) nowUTC d + 1 := by
      by_cases hs2 : t0 + 1000 * d < nowUTC
      · have ha : (0 : Int) ≤ nowUTC - (t0 + 1000 * d) - 1 := by omega
        have he1 : nowUTC - t0 - 1
            = (nowUTC - (t0 + 1000 * d) - 1) + 1 * (1000 * d) := by ring
        have hstep : (nowUTC - t0 - 1).tdiv (1000 * d)
            = (nowUTC - (t0 + 1000 * d) - 1).tdiv (1000 * d) + 1 := by
          rw [he1, tdiv_add_one_mul _ _ ha hp]
        have hnn : 0 ≤ (nowUTC - (t0 + 1000 * d) - 1).tdiv (1000 * d) :=
          tdiv_nonneg_of_nonneg _ _ ha (by omega)
        simp only [specNumPages, if_pos hs, if_pos hs2]
        omega
      · have hz : (nowUTC - t0 - 1).tdiv (1000 * d) = 0 := by
          rw [Int.tdiv_eq_ediv (by omega) (by omega)]
          exact Int.ediv_eq_zero_of_lt (by omega) (by omega)
        simp only [specNumPages, if_pos hs, if_neg hs2]
        omega
    simp only [specPages, hnum, List.range_succ_eq_map, List.map_cons,
      List.map_map]
    congr 1
    · norm_num
    · apply List.map_congr_left
      intro k _
      simp only [Function.comp_apply, Prod.mk.injEq]
      constructor
      · push_cast
        ring
      · congr 1
        push_cast
        ring
  · rw [dif_neg (by tauto), specPages, specNumPages, if_neg hs]
    simp
termination_by (nowUTC - t0).toNat
decreasing_by omega

theorem getIntervalMilliseconds_pos (interval : String) :
    0 < getIntervalMilliseconds interval := by
  unfold getIntervalMilliseconds
  split_ifs <;> norm_num

theorem shouldUpdateFrequency_initial_mem (interval : String) :
    shouldUpdateFrequency initialIntervalUpdateFrequency interval ∈
      ([300, 1800, 3600, 14400, 600] : List Int) := by
  simp only [shouldUpdateFrequency, initialIntervalUpdateFrequency, mapGet]
  split_ifs <;> simp

/-- One element of a decoded upstream bar (`KlineData []interface{}`,
binance.go:17): a JSON value as produced by `json.Unmarshal` into
`interface{}` — numbers become `float64` (here: the numeric value, integral
for open times), strings stay strings, anything else is `other`. -/
inductive JVal where
  | num : Int → JVal
  | str : String → JVal
  | other : JVal
deriving DecidableEq, Repr

/-- A raw upstream bar: a heterogeneous array of JSON values. -/
def Kline : Type := List JVal

instance : DecidableEq Kline := inferInstanceAs (DecidableEq (List JVal))

/-- A Go runtime panic, as raised by a failed unchecked type assertion
such as `kline[0].(float64)` (binance.go:175). -/
inductive GoPanic where
  | typeAssertion
deriving DecidableEq, Repr

/-- The row handed to `db.SaveKlineData` (binance.go:188). -/
structure KlineRow where
  timestamp : Int
  openPrice : String
  closePrice : String
  highPrice : String
  lowPrice : String
  volume : String
deriving DecidableEq, Repr

/-- The unchecked type assertions of binance.go:175-185: `kline[0]` must be
a `float64` and `kline[1]`..`kline[5]` strings, otherwise Go panics.  The
open time is routed through the Shanghai round trip (binance.go:178-179)
before storage. -/
def decodeBar : Kline → Except GoPanic KlineRow
  | JVal.num t :: JVal.str o :: JVal.str h :: JVal.str l :: JVal.str c ::
      JVal.str v :: _ =>
    Except.ok ⟨ShanghaiToTimestamp (TimestampToShanghai t), o, c, h, l, v⟩
  | _ => Except.error GoPanic.typeAssertion

/-- The bar loop of `ProcessKlineData` (binance.go:167-194): bars with
fewer than 6 elements are skipped with a warning; otherwise the bar is
decoded (possibly panicking) and saved, a failed save (`saveOk row =
false`) being logged and skipped without incrementing the count. -/
def processBars (saveOk : KlineRow → Bool) : List Kline → Except GoPanic Nat
  | [] => Except.ok 0
  | kline :: rest =>
    if kline.length < 6 then processBars saveOk rest
    else
      match decodeBar kline with
      | Except.error p => Except.error p
      | Except.ok row =>
        match processBars saveOk rest with
        | Except.error p => Except.error p
        | Except.ok n => Except.ok (if saveOk row then n + 1 else n)

/-- `api.ProcessKlineData` (binance.go:159-197): ensure the table exists
(an error there returns `(0, err)`), then run the bar loop; the returned
pair is (count, Go error), and a `GoPanic` models an aborted call. -/
def ProcessKlineData (ensureTableOk : Bool) (saveOk : KlineRow → Bool)
    (klines : List Kline) : Except GoPanic (Nat × Option Unit) :=
  if ensureTableOk then
    (processBars saveOk klines).map fun n => (n, none)
  else
    Except.ok (0, some ())

/-- A bar is well typed when, if it has at least 6 elements, its first is
numeric and the following five are strings (the shape a well-formed
upstream response always has). -/
def wellTypedBar (kline : Kline) : Prop :=
  6 ≤ kline.length →
    ∃ t o h l c v rest,
      kline = JVal.num t :: JVal.str o :: JVal.str h :: JVal.str l ::
        JVal.str c :: JVal.str v :: rest

/-- The count the spec predicts: bars of length ≥ 6 whose save succeeds. -/
def specSavedCount (saveOk : KlineRow → Bool) (klines : List Kline) : Nat :=
  (klines.filter fun k => 6 ≤ k.length).countP fun k =>
    match decodeBar k with
    | Except.ok row => saveOk row
    | Except.error _ => false

deriving instance DecidableEq for Except

theorem processBars_ok_of_wellTyped (saveOk : KlineRow → Bool) :
    ∀ klines : List Kline, (∀ k ∈ klines, wellTypedBar k) →
      ∃ n, processBars saveOk klines = Except.ok n := by
  intro klines h
  induction klines with
  | nil => exact ⟨0, rfl⟩
  | cons k rest ih =>
    obtain ⟨n, hn⟩ := ih fun x hx => h x (List.mem_cons_of_mem _ hx)
    by_cases hl : k.length < 6
    · exact ⟨n, by simp only [processBars]; rw [if_pos hl]; exact hn⟩
    · obtain ⟨t, o, hi, l, c, v, rest2, hk⟩ :=
        h k (List.mem_cons_self _ _) (by omega)
      subst hk
      refine ⟨if saveOk ⟨ShanghaiToTimestamp (TimestampToShanghai t),
        o, c, hi, l, v⟩ then n + 1 else n, ?_⟩
      simp only [processBars]
      rw [if_neg hl]
      simp [decodeBar, hn]

theorem processBars_count (saveOk : KlineRow → Bool) :
    ∀ (klines : List Kline) (n : Nat),
      processBars saveOk klines = Except.ok n →
      n = specSavedCount saveOk klines := by
  intro klines
  induction klines with
  | nil =>
    intro n hn
    simp only [processBars, Except.ok.injEq] at hn
    simp [specSavedCount, ← hn]
  | cons k rest ih =>
    intro n hn
    simp only [processBars] at hn
    by_cases hl : k.length < 6
    · rw [if_pos hl] at hn
      have hk : ¬(6 ≤ k.length) := by omega
      rw [ih n hn]
      simp [specSavedCount, List.filter_cons, hk]
    · rw [if_neg hl] at hn
      have hk : 6 ≤ k.length := by omega
      rcases hdec : decodeBar k with p | row <;> rw [hdec] at hn
      · cases hn
      · rcases hrest : processBars saveOk rest with p | m <;> rw [hrest] at hn
        · cases hn
        · simp only [Except.ok.injEq] at hn
          rw [← hn, ih m hrest]
          simp [specSavedCount, List.filter_cons, hk, List.countP_cons, hdec]
          by_cases hs : saveOk row <;> simp [hs]

/-- C5 counterexample: a bar of length 6 whose open time is a string (not a
number) drives `ProcessKlineData` into the unchecked type assertion
`kline[0].(float64)`: the call panics instead of logging a warning and
returning a zero count. -/
theorem processKlineData_panics_on_ill_typed_bar :
    ProcessKlineData true (fun _ => true)
        [([JVal.str "x", JVal.str "1", JVal.str "2", JVal.str "3",
           JVal.str "4", JVal.str "5"] : Kline)]
      = Except.error GoPanic.typeAssertion := by decide

/-- C5 amended: `ProcessKlineData` never panics on pages whose bars of
length ≥ 6 are well typed (numeric open time and string-typed price/volume
fields, the shape every well-formed upstream response has); in that case
every failure surfaces only as a zero-count / error-flagged result.  A bar
of length ≥ 6 with a non-numeric open time or non-string price field,
however, panics (see the counterexample). -/
theorem processKlineData_no_panic_when_well_typed :
    ∀ (ensureTableOk : Bool) (saveOk : KlineRow → Bool) (klines : List Kline),
      (∀ k ∈ klines, wellTypedBar k) →
      ∃ n e, ProcessKlineData ensureTableOk saveOk klines
        = Except.ok (n, e) := by
  intro ensureTableOk saveOk klines h
  cases ensureTableOk with
  | false => exact ⟨0, some (), rfl⟩
  | true =>
    obtain ⟨n, hn⟩ := processBars_ok_of_wellTyped saveOk klines h
    exact ⟨n, none, by simp [ProcessKlineData, hn, Except.map]⟩

theorem processKlineData_no_panic_witness :
    ∃ n e, ProcessKlineData true (fun _ => true)
        [([JVal.num 0, JVal.str "1", JVal.str "2", JVal.str "3",
           JVal.str "4", JVal.str "5"] : Kline)]
      = Except.ok (n, e) :=
  processKlineData_no_panic_when_well_typed true (fun _ => true) _ (by
    intro k hk
    simp only [List.mem_singleton] at hk
    subst hk
    intro _
    exact ⟨0, "1", "2", "3", "4", "5", [], rfl⟩)

/-- C8: a bar with fewer than 6 elements is skipped: it leaves the loop
result (count and all later bars) unchanged, and whenever
`ProcessKlineData` returns a count with no error, that count equals the
number of bars of length ≥ 6 whose save succeeded. -/
theorem malformed_bar_skip :
    (∀ (saveOk : KlineRow → Bool) (k : Kline) (rest : List Kline),
        k.length < 6 →
        processBars saveOk (k :: rest) = processBars saveOk rest) ∧
    (∀ (ensureTableOk : Bool) (saveOk : KlineRow → Bool)
        (klines : List Kline) (n : Nat) (e : Option Unit),
        ProcessKlineData ensureTableOk saveOk klines = Except.ok (n, e) →
        e = none →
        n = specSavedCount saveOk klines) := by
  constructor
  · intro saveOk k rest hl
    simp only [processBars]
    rw [if_pos hl]
  · intro ensureTableOk saveOk klines n e h he
    subst he
    cases ensureTableOk with
    | false => simp [ProcessKlineData] at h
    | true =>
      simp only [ProcessKlineData, if_pos] at h
      rcases hp : processBars saveOk klines with p | m <;> rw [hp] at h
      · cases h
      · simp only [Except.map, Except.ok.injEq, Prod.mk.injEq] at h
        rw [← h.1]
        exact processBars_count saveOk klines m hp

theorem malformed_bar_skip_witness :
    processBars (fun _ => true)
        [([JVal.num 1] : Kline),
         ([JVal.num 0, JVal.str "1", JVal.str "2", JVal.str "3",
           JVal.str "4", JVal.str "5"] : Kline)]
      = processBars (fun _ => true)
        [([JVal.num 0, JVal.str "1", JVal.str "2", JVal.str "3",
           JVal.str "4", JVal.str "5"] : Kline)] ∧
    1 = specSavedCount (fun _ => true)
        [([JVal.num 1] : Kline),
         ([JVal.num 0, JVal.str "1", JVal.str "2", JVal.str "3",
           JVal.str "4", JVal.str "5"] : Kline)] :=
  ⟨malformed_bar_skip.1 (fun _ => true) _ _ (by decide),
   malformed_bar_skip.2 true (fun _ => true) _ 1 none (by decide) rfl⟩

/-- One HTTP exchange as `FetchKlineData` observes it: either a transport
error from `client.Get`, or a response carrying a status code, a possible
body-read error, and the `json.Unmarshal` outcome of the body. -/
structure HttpResponse where
  status : Nat
  readErr : Bool
  parsed : Except Unit (List Kline)

/-- `api.FetchKlineData` (binance.go:131-156): propagates the transport
error, the body-read error, or the unmarshal outcome; the HTTP status code
is never inspected. -/
def FetchKlineData (resp : Except Unit HttpResponse) :
    Except Unit (List Kline) :=
  match resp with
  | Except.error _ => Except.error ()
  | Except.ok r =>
    if r.readErr then Except.error ()
    else r.parsed

/-- The collaborators of one `UpdateSymbolData` call: the current UTC
millisecond time and the outcomes of the DB and HTTP dependencies. -/
structure Env where
  nowUTC : Int
  getLastKlineTimestamp : String → Except Unit Int
  httpResponse : String → FetchReq → Except Unit HttpResponse
  ensureTableOk : String → Bool
  saveOk : String → KlineRow → Bool

/-- The paginated page loop of `UpdateSymbolData` (binance.go:260-284):
each window is fetched and processed; a fetch error or a process error is
logged and skipped (`continue`), successful counts accumulate, and a Go
panic aborts the goroutine. -/
def runPages (env : Env) (interval : String) :
    List (Int × Int) → Except GoPanic Nat
  | [] => Except.ok 0
  | (s, e) :: rest =>
    match FetchKlineData (env.httpResponse interval ⟨s, e, 1000⟩) with
    | Except.error _ => runPages env interval rest
    | Except.ok klines =>
      match ProcessKlineData (env.ensureTableOk interval)
          (env.saveOk interval) klines with
      | Except.error p => Except.error p
      | Except.ok (_, some _) => runPages env interval rest
      | Except.ok (cnt, none) =>
        match runPages env interval rest with
        | Except.error p => Except.error p
        | Except.ok total => Except.ok (total + cnt)

/-- Per-interval body of `UpdateSymbolData` (binance.go:235-308): computes
`neededBars`, either paginates (widening the frequency table to 600s
afterwards) or issues the single unbounded-end fetch; every handled error
yields a zero count and leaves the table alone. -/
def updateInterval (env : Env) (ftbl : List (String × Int))
    (interval : String) : Except GoPanic (Nat × List (String × Int)) :=
  match env.getLastKlineTimestamp interval with
  | Except.error _ => Except.ok (0, ftbl)
  | Except.ok lastTimestamp =>
    let utcTimestamp := lastToUtcMs lastTimestamp
    let intervalMs := getIntervalMilliseconds interval
    let neededBars := (env.nowUTC - utcTimestamp).tdiv intervalMs
    if neededBars > 1000 then
      match runPages env interval
          (paginationWindows utcTimestamp env.nowUTC intervalMs) with
      | Except.error p => Except.error p
      | Except.ok total => Except.ok (total, mapSet ftbl interval (10 * 60))
    else
      match FetchKlineData
          (env.httpResponse interval ⟨utcTimestamp, 0, 1000⟩) with
      | Except.error _ => Except.ok (0, ftbl)
      | Except.ok klines =>
        match ProcessKlineData (env.ensureTableOk interval)
            (env.saveOk interval) klines with
        | Except.error p => Except.error p
        | Except.ok (_, some _) => Except.ok (0, ftbl)
        | Except.ok (cnt, none) => Except.ok (cnt, ftbl)

/-- The interval loop of `UpdateSymbolData` (binance.go:235-309): the
result map is built by Go map assignment in processing order. -/
def updateSymbolDataLoop (env : Env) (acc : List (String × Nat))
    (ftbl : List (String × Int)) :
    List String → Except GoPanic (List (String × Nat) × List (String × Int))
  | [] => Except.ok (acc, ftbl)
  | interval :: rest =>
    match updateInterval env ftbl interval with
    | Except.error p => Except.error p
    | Except.ok (n, ftbl2) =>
      updateSymbolDataLoop env (mapSet acc interval n) ftbl2 rest

/-- `api.UpdateSymbolData` (binance.go:232-312): runs the interval loop on
an empty result map and returns `(result, nil)` — the error value is the
literal `nil` of binance.go:311. -/
def UpdateSymbolData (env : Env) (ftbl : List (String × Int))
    (intervals : List String) :
    Except GoPanic (List (String × Nat) × List (String × Int) × Option Unit) :=
  (updateSymbolDataLoop env [] ftbl intervals).map fun r =>
    (r.1, r.2, (none : Option Unit))

/-- The post-update closure of `checkAndUpdateData` (scheduler.go:117-124):
for every interval in the result map, stamp `now` as the last-update time
under the shared lock. -/
def applyBookkeeping (book : List (String × GoTime)) (nowT : GoTime)
    (results : List (String × Nat)) : List (String × GoTime) :=
  results.foldl (fun b p => mapSet b p.1 nowT) book

theorem mapGet_mapSet_self {α : Type} (tbl : List (String × α)) (k : String)
    (v : α) : mapGet (mapSet tbl k v) k = some v := by
  induction tbl with
  | nil => simp [mapSet, mapGet]
  | cons p rest ih =>
    by_cases h : p.1 = k
    · simp [mapSet, mapGet, h]
    · simp only [mapSet, mapGet]
      rw [if_neg h, mapGet, if_neg h]
      exact ih

theorem mapGet_mapSet_other {α : Type} (tbl : List (String × α))
    (k key : String) (v : α) (h : k ≠ key) :
    mapGet (mapSet tbl k v) key = mapGet tbl key := by
  induction tbl with
  | nil => simp [mapSet, mapGet, h]
  | cons p rest ih =>
    by_cases hp : p.1 = k
    · simp only [mapSet]
      rw [if_pos hp, mapGet, mapGet, if_neg (hp ▸ h), if_neg (hp ▸ h)]
    · simp only [mapSet]
      rw [if_neg hp, mapGet, mapGet]
      by_cases hq : p.1 = key
      · rw [if_pos hq, if_pos hq]
      · rw [if_neg hq, if_neg hq]
        exact ih

theorem applyBookkeeping_mapGet (nowT : GoTime) :
    ∀ (results : List (String × Nat)) (book : List (String × GoTime))
      (interval : String),
      mapGet (applyBookkeeping book nowT results) interval
        = if interval ∈ results.map Prod.fst then some nowT
          else mapGet book interval := by
  intro results
  induction results with
  | nil => intro book interval; simp [applyBookkeeping]
  | cons p rest ih =>
    intro book interval
    have hstep : applyBookkeeping book nowT (p :: rest)
        = applyBookkeeping (mapSet book p.1 nowT) nowT rest := rfl
    rw [hstep, ih]
    by_cases hmem : interval ∈ rest.map Prod.fst
    · rw [if_pos hmem, if_pos (by simp [hmem])]
    · rw [if_neg hmem]
      by_cases hp : p.1 = interval
      · rw [if_pos (by simp [hp]), hp, mapGet_mapSet_self]
      · rw [if_neg (by simp [hmem]; exact fun e => hp e.symm),
          mapGet_mapSet_other _ _ _ _ hp]

/-- A concrete environment whose only fetch attempt fails at transport
level: the stored data is current enough that a single unbounded fetch is
issued, and that fetch errors. -/
def failEnv : Env :=
  { nowUTC := 1000
    getLastKlineTimestamp := fun _ => Except.ok 0
    httpResponse := fun _ _ => Except.error ()
    ensureTableOk := fun _ => true
    saveOk := fun _ _ => true }

/-- A concrete environment with a 2500-bar gap for the 5m interval, whose
page fetches all fail: the paginated branch runs to completion with a zero
total. -/
def backfillEnv : Env :=
  { nowUTC := 750000000
    getLastKlineTimestamp := fun _ => Except.ok 0
    httpResponse := fun _ _ => Except.error ()
    ensureTableOk := fun _ => true
    saveOk := fun _ _ => true }

theorem updateInterval_paginates (env : Env) (ftbl : List (String × Int))
    (interval : String) (last : Int)
    (hlast : env.getLastKlineTimestamp interval = Except.ok last)
    (hgap : 1000 < (env.nowUTC - lastToUtcMs last).tdiv
        (getIntervalMilliseconds interval)) :
    updateInterval env ftbl interval
      = match runPages env interval
            (specPages (lastToUtcMs last) env.nowUTC
              (getIntervalMilliseconds interval)) with
        | Except.error p => Except.error p
        | Except.ok total =>
            Except.ok (total, mapSet ftbl interval (10 * 60)) := by
  simp only [updateInterval, hlast]
  rw [if_pos hgap, paginationWindows_eq_specPages _ _ _
    (getIntervalMilliseconds_pos interval)]

/-- C2: for every UTC millisecond value `x`, converting it to the configured
local time and back is the identity (`ShanghaiToTimestamp ∘
TimestampToShanghai = id`); both conversions are pure Lean functions of
their argument, hence deterministic. -/
theorem shanghai_timestamp_roundtrip :
    ∀ x : Int, ShanghaiToTimestamp (TimestampToShanghai x) = x := by
  intro x
  show (x.tdiv 1000 * 1000000000 + x.tmod 1000 * 1000000).tdiv 1000000 = x
  have h : x.tdiv 1000 * 1000000000 + x.tmod 1000 * 1000000
      = 1000000 * (1000 * x.tdiv 1000 + x.tmod 1000) := by ring
  rw [h, Int.tdiv_add_tmod, Int.mul_tdiv_cancel_left _ (by norm_num)]

/-- C3: `ShouldUpdateInterval interval t` is true exactly when `now - t`
reaches the interval's current update frequency; in particular it is false
immediately after an update, false at 299s elapsed for the 300s-frequency
5m interval, true at exactly 300s, and true for the Go zero time. -/
theorem shouldUpdateInterval_boundary :
    (∀ (ftbl : List (String × Int)) (interval : String) (nowT t : GoTime),
        ShouldUpdateInterval ftbl interval nowT t = true ↔
          nowT.nano - t.nano ≥ shouldUpdateFrequency ftbl interval * 1000000000) ∧
    (∀ (ftbl : List (String × Int)) (interval : String) (nowT : GoTime),
        0 < shouldUpdateFrequency ftbl interval →
        ShouldUpdateInterval ftbl interval nowT nowT = false) ∧
    (∀ nowT t : GoTime, nowT.nano - t.nano = 299 * 1000000000 →
        ShouldUpdateInterval initialIntervalUpdateFrequency "5m" nowT t = false) ∧
    (∀ nowT t : GoTime, nowT.nano - t.nano = 300 * 1000000000 →
        ShouldUpdateInterval initialIntervalUpdateFrequency "5m" nowT t = true) ∧
    (∀ (interval : String) (nowT : GoTime), 0 ≤ nowT.nano →
        ShouldUpdateInterval initialIntervalUpdateFrequency interval nowT
          goZeroTime = true) := by
  have hf5 : shouldUpdateFrequency initialIntervalUpdateFrequency "5m" = 300 := by
    decide
  refine ⟨?_, ?_, ?_, ?_, ?_⟩
  · intro ftbl interval nowT t
    simp [ShouldUpdateInterval]
  · intro ftbl interval nowT hf
    simp only [ShouldUpdateInterval, decide_eq_false_iff_not, not_le]
    have := getIntervalMilliseconds_pos interval
    nlinarith
  · intro nowT t h
    simp only [ShouldUpdateInterval, hf5, decide_eq_false_iff_not, not_le]
    omega
  · intro nowT t h
    simp only [ShouldUpdateInterval, hf5, decide_eq_true_eq]
    omega
  · intro interval nowT h
    have hmem := shouldUpdateFrequency_initial_mem interval
    simp only [List.mem_cons, List.not_mem_nil, or_false] at hmem
    simp only [ShouldUpdateInterval, decide_eq_true_eq, goZeroTime]
    rcases hmem with h1 | h1 | h1 | h1 | h1 <;> rw [h1] <;> omega

theorem shouldUpdateInterval_boundary_witness :
    ShouldUpdateInterval initialIntervalUpdateFrequency "5m"
        ⟨299 * 1000000000, .utc⟩ ⟨0, .utc⟩ = false ∧
    ShouldUpdateInterval initialIntervalUpdateFrequency "5m"
        ⟨300 * 1000000000, .utc⟩ ⟨0, .utc⟩ = true ∧
    ShouldUpdateInterval initialIntervalUpdateFrequency "1h"
        ⟨0, .utc⟩ goZeroTime = true :=
  ⟨shouldUpdateInterval_boundary.2.2.1 _ _ (by norm_num),
   shouldUpdateInterval_boundary.2.2.2.1 _ _ (by norm_num),
   shouldUpdateInterval_boundary.2.2.2.2 "1h" _ (by norm_num)⟩

/-- C10: intervals outside the supported set are never rejected:
`getIntervalMilliseconds` falls back to the 1-hour duration and
`ShouldUpdateInterval` to the 600-second default frequency. -/
theorem unknown_interval_fallback :
    ∀ interval : String,
      interval ∉ (["5m", "30m", "1h", "4h"] : List String) →
      getIntervalMilliseconds interval = 3600000 ∧
      shouldUpdateFrequency initialIntervalUpdateFrequency interval = 600 ∧
      ∀ nowT t : GoTime,
        ShouldUpdateInterval initialIntervalUpdateFrequency interval nowT t
          = decide (nowT.nano - t.nano ≥ 600 * 1000000000) := by
  intro interval h
  simp only [List.mem_cons, List.not_mem_nil, or_false, not_or] at h
  obtain ⟨h1, h2, h3, h4⟩ := h
  have g1 : ¬("5m" = interval) := fun e => h1 e.symm
  have g2 : ¬("30m" = interval) := fun e => h2 e.symm
  have g3 : ¬("1h" = interval) := fun e => h3 e.symm
  have g4 : ¬("4h" = interval) := fun e => h4 e.symm
  have hfreq : shouldUpdateFrequency initialIntervalUpdateFrequency interval
      = 600 := by
    simp [shouldUpdateFrequency, initialIntervalUpdateFrequency, mapGet,
      g1, g2, g3, g4]
  refine ⟨?_, hfreq, ?_⟩
  · simp [getIntervalMilliseconds, h1, h2, h3, h4]
  · intro nowT t
    simp [ShouldUpdateInterval, hfreq]

theorem unknown_interval_fallback_witness :
    getIntervalMilliseconds "7d" = 3600000 ∧
    shouldUpdateFrequency initialIntervalUpdateFrequency "7d" = 600 ∧
    ∀ nowT t : GoTime,
      ShouldUpdateInterval initialIntervalUpdateFrequency "7d" nowT t
        = decide (nowT.nano - t.nano ≥ 600 * 1000000000) :=
  unknown_interval_fallback "7d" (by decide)

/-- C1: when `neededBars = (now - lastUtcMs) / intervalMs` exceeds 1000,
`UpdateSymbolData` issues one fetch per step of width `1000 * intervalMs`
starting at `lastUtcMs`, stopping once `start ≥ now`, each end clamped to
`now` (the `specPages` closed form); a gap of exactly 2500 five-minute bars
yields exactly the 3 stated pages; when `neededBars ≤ 1000` a single fetch
`(start = lastUtcMs, end = 0, limit = 1000)` is issued. -/
theorem updateSymbolData_pagination :
    (∀ (interval : String) (lastTimestamp nowUTC : Int),
        (nowUTC - lastToUtcMs lastTimestamp).tdiv
            (getIntervalMilliseconds interval) ≤ 1000 →
        updateIntervalFetches interval lastTimestamp nowUTC
          = [⟨lastToUtcMs lastTimestamp, 0, 1000⟩]) ∧
    (∀ (interval : String) (lastTimestamp nowUTC : Int),
        1000 < (nowUTC - lastToUtcMs lastTimestamp).tdiv
            (getIntervalMilliseconds interval) →
        updateIntervalFetches interval lastTimestamp nowUTC
          = (specPages (lastToUtcMs lastTimestamp) nowUTC
              (getIntervalMilliseconds interval)).map fun w =>
                ⟨w.1, w.2, 1000⟩) ∧
    updateIntervalFetches "5m" 0 (2500 * 300000)
      = [⟨0, 1000 * 300000, 1000⟩, ⟨1000 * 300000, 2000 * 300000, 1000⟩,
         ⟨2000 * 300000, 2500 * 300000, 1000⟩] := by
  refine ⟨?_, ?_, ?_⟩
  · intro interval lastTimestamp nowUTC h
    simp only [updateIntervalFetches]
    rw [if_neg (by omega)]
  · intro interval lastTimestamp nowUTC h
    simp only [updateIntervalFetches]
    rw [if_pos (by omega), paginationWindows_eq_specPages _ _ _
      (getIntervalMilliseconds_pos interval)]
  · simp only [updateIntervalFetches]
    rw [paginationWindows_eq_specPages _ _ _ (by decide)]
    decide

theorem updateSymbolData_pagination_witness :
    updateIntervalFetches "1h" 0 3600000 = [⟨0, 0, 1000⟩] ∧
    updateIntervalFetches "1h" 0 (2500 * 3600000)
      = (specPages 0 (2500 * 3600000) 3600000).map
          (fun w => ⟨w.1, w.2, 1000⟩) := by
  have h1 := updateSymbolData_pagination.1 "1h" 0 3600000 (by decide)
  have h2 := updateSymbolData_pagination.2.1 "1h" 0 (2500 * 3600000) (by decide)
  have hlast : lastToUtcMs 0 = 0 := by decide
  rw [hlast] at h1 h2
  exact ⟨h1, h2⟩

/-- C4: after a paginated backfill (`neededBars > 1000`) completes without
panic, the interval's frequency-table entry is set to 600 seconds, every
subsequent `ShouldUpdateInterval` call on the resulting table uses the
10-minute cadence for that interval, an update of a different interval
preserves the entry, and no other path modifies the table: the
non-paginated branch and the failed-read branch return it unchanged. -/
theorem frequency_widening :
    (∀ (env : Env) (ftbl : List (String × Int)) (interval : String)
        (last : Int) (n : Nat) (ftbl2 : List (String × Int)),
        env.getLastKlineTimestamp interval = Except.ok last →
        1000 < (env.nowUTC - lastToUtcMs last).tdiv
            (getIntervalMilliseconds interval) →
        updateInterval env ftbl interval = Except.ok (n, ftbl2) →
        ftbl2 = mapSet ftbl interval 600 ∧
        mapGet ftbl2 interval = some 600) ∧
    (∀ (ftbl : List (String × Int)) (interval : String) (nowT t : GoTime),
        mapGet ftbl interval = some 600 →
        ShouldUpdateInterval ftbl interval nowT t
          = decide (nowT.nano - t.nano ≥ 600 * 1000000000)) ∧
    (∀ (ftbl : List (String × Int)) (k i : String) (v : Int), k ≠ i →
        mapGet (mapSet ftbl k v) i = mapGet ftbl i) ∧
    (∀ (env : Env) (ftbl : List (String × Int)) (interval : String)
        (last : Int) (n : Nat) (ftbl2 : List (String × Int)),
        env.getLastKlineTimestamp interval = Except.ok last →
        (env.nowUTC - lastToUtcMs last).tdiv
            (getIntervalMilliseconds interval) ≤ 1000 →
        updateInterval env ftbl interval = Except.ok (n, ftbl2) →
        ftbl2 = ftbl) ∧
    (∀ (env : Env) (ftbl : List (String × Int)) (interval : String),
        env.getLastKlineTimestamp interval = Except.error () →
        updateInterval env ftbl interval = Except.ok (0, ftbl)) := by
  refine ⟨?_, ?_, ?_, ?_, ?_⟩
  · intro env ftbl interval last n ftbl2 hlast hgap hupd
    rw [updateInterval_paginates env ftbl interval last hlast hgap] at hupd
    rcases hr : runPages env interval (specPages (lastToUtcMs last) env.nowUTC
        (getIntervalMilliseconds interval)) with p | total <;> rw [hr] at hupd
    · cases hupd
    · simp only [Except.ok.injEq, Prod.mk.injEq] at hupd
      have h6 : mapSet ftbl interval (10 * 60) = mapSet ftbl interval 600 := by
        norm_num
      refine ⟨by rw [← hupd.2, h6], ?_⟩
      rw [← hupd.2, h6, mapGet_mapSet_self]
  · intro ftbl interval nowT t h
    simp [ShouldUpdateInterval, shouldUpdateFrequency, h]
  · intro ftbl k i v h
    exact mapGet_mapSet_other ftbl k i v h
  · intro env ftbl interval last n ftbl2 hlast hle hupd
    simp only [updateInterval, hlast] at hupd
    rw [if_neg (by omega)] at hupd
    rcases hf : FetchKlineData (env.httpResponse interval
        ⟨lastToUtcMs last, 0, 1000⟩) with e | klines
    · simp only [hf, Except.ok.injEq, Prod.mk.injEq] at hupd
      exact hupd.2.symm
    · rcases hp : ProcessKlineData (env.ensureTableOk interval)
          (env.saveOk interval) klines with p | pair
      · rw [hf] at hupd
        simp only [hp] at hupd
        simp at hupd
      · rcases pair with ⟨cnt, e⟩
        rcases e with _ | u <;>
          simp only [hf, hp, Except.ok.injEq, Prod.mk.injEq] at hupd <;>
          exact hupd.2.symm
  · intro env ftbl interval h
    simp [updateInterval, h]

theorem backfillEnv_updateInterval :
    updateInterval backfillEnv initialIntervalUpdateFrequency "5m"
      = Except.ok (0, mapSet initialIntervalUpdateFrequency "5m" (10 * 60)) := by
  rw [updateInterval_paginates backfillEnv initialIntervalUpdateFrequency
    "5m" 0 rfl (by decide)]
  decide

theorem frequency_widening_witness :
    mapSet initialIntervalUpdateFrequency "5m" (10 * 60)
        = mapSet initialIntervalUpdateFrequency "5m" 600 ∧
    mapGet (mapSet initialIntervalUpdateFrequency "5m" (10 * 60)) "5m"
        = some 600 :=
  frequency_widening.1 backfillEnv initialIntervalUpdateFrequency "5m" 0 0
    (mapSet initialIntervalUpdateFrequency "5m" (10 * 60))
    rfl (by decide) backfillEnv_updateInterval

/-- C6 counterexample: in an environment whose only fetch fails at
transport level, the update of `1h` is a wholly failed unit of work — a
zero-count result produced by an error with a nil Go error — yet
`checkAndUpdateData` still stamps the bookkeeping entry with the new time
999, overwriting the previous value 5: the entry does not stay unchanged,
so the pair is not retried at the next tick. -/
theorem bookkeeping_failed_update_counterexample :
    UpdateSymbolData failEnv initialIntervalUpdateFrequency ["1h"]
      = Except.ok ([("1h", 0)], initialIntervalUpdateFrequency, none) ∧
    mapGet (applyBookkeeping [("1h", ⟨5, GoLoc.utc⟩)] ⟨999, GoLoc.utc⟩
        [("1h", 0)]) "1h" = some ⟨999, GoLoc.utc⟩ ∧
    mapGet [("1h", (⟨5, GoLoc.utc⟩ : GoTime))] "1h" = some ⟨5, GoLoc.utc⟩ ∧
    (⟨999, GoLoc.utc⟩ : GoTime) ≠ ⟨5, GoLoc.utc⟩ :=
  ⟨by decide, by decide, by decide, by decide⟩

/-- C6 amended: the bookkeeping entry of every interval present in the
result map is set to `now` under the shared lock — after successful pages
and equally after wholly failed updates, which `UpdateSymbolData` reports
as count 0 with a nil error; a failed pair is therefore retried only once
its update frequency elapses again, not at the next tick. -/
theorem bookkeeping_stamps_every_result :
    ∀ (book : List (String × GoTime)) (nowT : GoTime)
      (results : List (String × Nat)) (interval : String),
      interval ∈ results.map Prod.fst →
      mapGet (applyBookkeeping book nowT results) interval = some nowT := by
  intro book nowT results interval h
  rw [applyBookkeeping_mapGet, if_pos h]

theorem bookkeeping_stamps_every_result_witness :
    mapGet (applyBookkeeping [("1h", ⟨5, GoLoc.utc⟩)] ⟨999, GoLoc.utc⟩
        [("1h", 0), ("4h", 7)]) "4h" = some ⟨999, GoLoc.utc⟩ :=
  bookkeeping_stamps_every_result [("1h", ⟨5, GoLoc.utc⟩)] ⟨999, GoLoc.utc⟩
    [("1h", 0), ("4h", 7)] "4h" (by decide)

/-- C7 counterexample: a non-success HTTP status (500) whose body still
parses as a kline array yields a successful, error-free result —
`FetchKlineData` never inspects the status code, so a non-success status
is not one of its error situations as the claim states. -/
theorem fetchKlineData_nonsuccess_status_ok :
    FetchKlineData (Except.ok ⟨500, false, Except.ok []⟩) = Except.ok [] ∧
    (500 : Nat) ≠ 200 :=
  ⟨rfl, by decide⟩

/-- C7 amended: `FetchKlineData` returns an error in exactly three
situations — transport failure, body-read failure, and a malformed
(unparseable) response body; the HTTP status code is never inspected, so a
non-success status alone produces no error (such a status surfaces only
when its body fails to parse as a kline array).  In every other case the
decoded page is returned, and the engine never auto-retries a failed page:
the backfill loop logs and continues with the next page. -/
theorem fetchKlineData_error_cases :
    (∀ resp : Except Unit HttpResponse,
        FetchKlineData resp = Except.error () ↔
          (resp = Except.error () ∨
           (∃ r, resp = Except.ok r ∧ r.readErr = true) ∨
           (∃ r, resp = Except.ok r ∧ r.readErr = false ∧
              r.parsed = Except.error ()))) ∧
    (∀ (env : Env) (interval : String) (s e : Int)
        (rest : List (Int × Int)),
        FetchKlineData (env.httpResponse interval ⟨s, e, 1000⟩)
          = Except.error () →
        runPages env interval ((s, e) :: rest)
          = runPages env interval rest) := by
  constructor
  · intro resp
    rcases resp with e | r
    · simp [FetchKlineData]
    · rcases r with ⟨st, re, pa⟩
      cases re
      · rcases pa with pe | pl <;> simp [FetchKlineData]
      · simp [FetchKlineData]
  · intro env interval s e rest h
    simp only [runPages, h]

theorem fetchKlineData_error_cases_witness :
    runPages failEnv "1h" [(0, 0)] = runPages failEnv "1h" [] :=
  fetchKlineData_error_cases.2 failEnv "1h" 0 0 [] rfl

/-- C9: `UpdateSymbolData` returns a nil Go error on every run that
returns at all, and an interval whose last-timestamp read fails
contributes a zero count while processing continues with the remaining
intervals — callers never observe a failure through the return value. -/
theorem updateSymbolData_nil_error :
    (∀ (env : Env) (ftbl : List (String × Int)) (intervals : List String)
        (res : List (String × Nat) × List (String × Int) × Option Unit),
        UpdateSymbolData env ftbl intervals = Except.ok res →
        res.2.2 = none) ∧
    (∀ (env : Env) (ftbl : List (String × Int)) (interval : String)
        (rest : List String),
        env.getLastKlineTimestamp interval = Except.error () →
        UpdateSymbolData env ftbl (interval :: rest)
          = (updateSymbolDataLoop env [(interval, 0)] ftbl rest).map fun r =>
              (r.1, r.2, (none : Option Unit))) := by
  constructor
  · intro env ftbl intervals res h
    unfold UpdateSymbolData at h
    rcases hl : updateSymbolDataLoop env [] ftbl intervals with p | pair <;>
      rw [hl] at h
    · cases h
    · simp only [Except.map, Except.ok.injEq] at h
      rw [← h]
  · intro env ftbl interval rest h
    have hui : updateInterval env ftbl interval = Except.ok (0, ftbl) := by
      simp [updateInterval, h]
    unfold UpdateSymbolData
    simp only [updateSymbolDataLoop, hui]
    rfl

theorem updateSymbolData_nil_error_witness :
    (([("1h", 0)], initialIntervalUpdateFrequency, (none : Option Unit)) :
        List (String × Nat) × List (String × Int) × Option Unit).2.2
      = none :=
  updateSymbolData_nil_error.1 failEnv initialIntervalUpdateFrequency ["1h"]
    ([("1h", 0)], initialIntervalUpdateFrequency, none) (by decide)

end Biupdata
